import Mathlib

/-!
# Verification development for `tdm-tools`

Shallow embedding (in Lean 4 / Mathlib) of the two command-line tools of the
repository:

* `tdm/app/map_to_tree.py` — the dataset-to-tree exporter (geotransform and
  raster builder, output path builder, simulation-metadata extraction, and the
  per-time-step export driver);
* `tools/radar_hdfs_cp.py` — the radar image relocator (directory scan with
  timestamp parsing, time-window filtering, and sorting).

Modelling conventions:

* Python strings are embedded as `List Char` (`Str`); Python string literals
  are written via `pystr`.
* IEEE-754 floats are idealised as exact rationals (`ℚ`).  Components whose
  behaviour depends on binary float *formatting* (`'{}'.format`, `'{:.3g}'`)
  or that are external OS / library collaborators (`os.stat`, `urllib.parse.
  urljoin`, the package version string) are abstracted as parameters of an
  `Env` record; no claim below depends on their output.
* Fallible Python code (index errors on empty sequences, `ValueError` from
  `datetime.strptime` / the `datetime` constructor) is embedded with `Option`.
* Filesystem side effects of the export driver are embedded as an explicit
  trace of events (`FSEvent`).
* `datetime` values are embedded without the microsecond field: every value
  the scripts construct or parse has microsecond 0, and `datetime.max`
  (microsecond 999999) is represented by its whole-second truncation, which
  compares identically against all whole-second values.
-/

/-- Python strings, embedded as lists of characters. -/
abbrev Str : Type := List Char

/-- Conversion from Lean string literals to embedded Python strings. -/
def pystr (s : String) : Str := s.data

/-- `s[-n:]` in Python: the trailing `n` characters (all of `s` if shorter). -/
def takeLast (s : Str) (n : Nat) : Str := List.drop (List.length s - n) s

/-- `posixpath.basename`: everything after the last `'/'`. -/
def basename (s : Str) : Str := ((List.reverse s).takeWhile (fun c => c ≠ '/')).reverse

/-- Last index of `c` in `s` (`str.rfind`), if any. -/
def rfindIdx (c : Char) (s : Str) : Option Nat :=
  (List.range (List.length s)).foldl
    (fun acc i => if List.getD s i ' ' = c then some i else acc) none

/-- `posixpath.splitext` on a path without directory separators: split off the
extension at the last dot, unless all characters before that dot are dots
(leading-dot files such as `.bashrc` have no extension). -/
def splitext (p : Str) : Str × Str :=
  match rfindIdx '.' p with
  | none => (p, [])
  | some dotIndex =>
    if (List.take dotIndex p).any (fun c => c ≠ '.') then
      (List.take dotIndex p, List.drop dotIndex p)
    else (p, [])

/-- One step of `posixpath.join`: absolute second components reset the path;
otherwise a `'/'` separator is inserted unless already present. -/
def joinOne (path : Str) (b : Str) : Str :=
  if List.head? b = some '/' then b
  else if path = ([] : Str) ∨ List.getLast? path = some '/' then path ++ b
  else path ++ ('/' :: b)

/-- `posixpath.join` with a list of further components. -/
def pathJoin (a : Str) (ps : List Str) : Str := ps.foldl joinOne a

example : pathJoin (pystr "/out") [pystr "a", pystr "b"] = pystr "/out/a/b" := by decide

example : splitext (pystr "moloch_foo_bar_001.nc") = (pystr "moloch_foo_bar_001", pystr ".nc") := by
  decide

example : splitext (pystr ".bashrc") = (pystr ".bashrc", pystr "") := by decide

example : basename (pystr "/a/b/c.nc") = pystr "c.nc" := by decide

/-! ## `datetime` values (`tools/radar_hdfs_cp.py`) -/

/-- A `datetime.datetime` value (microseconds omitted; see the header). -/
structure DT where
  year : Nat
  month : Nat
  day : Nat
  hour : Nat
  minute : Nat
  second : Nat
deriving DecidableEq

/-- Python `datetime` comparison: lexicographic on the components. -/
def DT.Lt (a b : DT) : Prop :=
  a.year < b.year ∨ (a.year = b.year ∧
    (a.month < b.month ∨ (a.month = b.month ∧
      (a.day < b.day ∨ (a.day = b.day ∧
        (a.hour < b.hour ∨ (a.hour = b.hour ∧
          (a.minute < b.minute ∨ (a.minute = b.minute ∧
            a.second < b.second)))))))))

instance (a b : DT) : Decidable (DT.Lt a b) := by
  unfold DT.Lt
  exact inferInstance

theorem DT_Lt_trans {a b c : DT} (h1 : DT.Lt a b) (h2 : DT.Lt b c) : DT.Lt a c := by
  rcases a with ⟨y1, m1, d1, h1', n1, s1⟩
  rcases b with ⟨y2, m2, d2, h2', n2, s2⟩
  rcases c with ⟨y3, m3, d3, h3', n3, s3⟩
  simp only [DT.Lt] at *
  omega

theorem DT_Lt_asymm {a b : DT} (h1 : DT.Lt a b) : ¬ DT.Lt b a := by
  rcases a with ⟨y1, m1, d1, h1', n1, s1⟩
  rcases b with ⟨y2, m2, d2, h2', n2, s2⟩
  simp only [DT.Lt] at *
  omega

theorem DT_Lt_connex {a b : DT} (h1 : ¬ DT.Lt a b) (h2 : ¬ DT.Lt b a) : a = b := by
  rcases a with ⟨y1, m1, d1, h1', n1, s1⟩
  rcases b with ⟨y2, m2, d2, h2', n2, s2⟩
  simp only [DT.Lt, DT.mk.injEq] at *
  omega

/-- `datetime.min` (1-01-01 00:00:00). -/
def MIN_DT : DT := ⟨1, 1, 1, 0, 0, 0⟩

/-- `datetime.max`, truncated to whole seconds (9999-12-31 23:59:59). -/
def MAX_DT : DT := ⟨9999, 12, 31, 23, 59, 59⟩

/-- Leap-year predicate (as in `calendar.isleap` / `datetime`). -/
def isLeap (y : Nat) : Prop := y % 4 = 0 ∧ (y % 100 ≠ 0 ∨ y % 400 = 0)

instance (y : Nat) : Decidable (isLeap y) := by
  unfold isLeap
  exact inferInstance

/-- Days in a month, as validated by the `datetime` constructor. -/
def daysInMonth (y m : Nat) : Nat :=
  if m = 2 then (if isLeap y then 29 else 28)
  else if m = 4 ∨ m = 6 ∨ m = 9 ∨ m = 11 then 30
  else 31

/-- The validation performed by the `datetime.datetime` constructor
(`MINYEAR ≤ year ≤ MAXYEAR`, month/day/hour/minute/second ranges);
out-of-range values raise `ValueError`. -/
def mkDatetime (y mo d h mi s : Nat) : Option DT :=
  if 1 ≤ y ∧ y ≤ 9999 ∧ 1 ≤ mo ∧ mo ≤ 12 ∧ 1 ≤ d ∧ d ≤ daysInMonth y mo
      ∧ h ≤ 23 ∧ mi ≤ 59 ∧ s ≤ 59 then
    some ⟨y, mo, d, h, mi, s⟩
  else none

/-! ### `datetime.strptime` for the fixed format `%Y-%m-%d_%H:%M:%S`

CPython's `_strptime` compiles the format to a regex
(`%Y ↦ \d\d\d\d`, `%m ↦ 1[0-2]|0[1-9]|[1-9]`, `%d ↦ 3[01]|[12]\d|0[1-9]|[1-9]`,
`%H ↦ 2[0-3]|[0-1]\d|\d`, `%M ↦ [0-5]\d|\d`, `%S ↦ 6[0-1]|[0-5]\d|\d`),
requires the regex to consume the whole input, and then passes the parsed
fields to the `datetime` constructor.  Two-character alternatives are listed
before the one-character fallback, and the regex engine backtracks to the
shorter alternative when the rest of the pattern fails. -/

/-- Numeric value of a digit character. -/
def digitVal (c : Char) : Nat := c.toNat - '0'.toNat

/-- One item of the compiled format: a four-digit year field, a numeric field
(with its two-digit-value and one-digit-value ranges), or a literal. -/
inductive FItem where
  | y4 : FItem
  | fld : (Nat → Bool) → (Nat → Bool) → FItem
  | lit : Char → FItem

/-- Regex matching of a compiled format against a string, with backtracking
from the two-digit to the one-digit alternative of a numeric field.  Returns
the list of parsed numeric fields; the whole input must be consumed. -/
def matchFmt : List FItem → Str → Option (List Nat)
  | [], [] => some []
  | [], _ :: _ => none
  | .lit c :: fs, x :: xs => if x = c then matchFmt fs xs else none
  | .lit _ :: _, [] => none
  | .y4 :: fs, a :: b :: c :: d :: xs =>
    if a.isDigit ∧ b.isDigit ∧ c.isDigit ∧ d.isDigit then
      (matchFmt fs xs).map
        (fun ns => (digitVal a * 1000 + digitVal b * 100 + digitVal c * 10 + digitVal d) :: ns)
    else none
  | .y4 :: _, [_, _, _] => none
  | .y4 :: _, [_, _] => none
  | .y4 :: _, [_] => none
  | .y4 :: _, [] => none
  | .fld two one :: fs, a :: b :: xs =>
    if a.isDigit ∧ b.isDigit ∧ two (digitVal a * 10 + digitVal b) then
      match matchFmt fs xs with
      | some ns => some ((digitVal a * 10 + digitVal b) :: ns)
      | none =>
        if a.isDigit ∧ one (digitVal a) then
          (matchFmt fs (b :: xs)).map (fun ns => digitVal a :: ns)
        else none
    else if a.isDigit ∧ one (digitVal a) then
      (matchFmt fs (b :: xs)).map (fun ns => digitVal a :: ns)
    else none
  | .fld _ one :: fs, [a] =>
    if a.isDigit ∧ one (digitVal a) then (matchFmt fs []).map (fun ns => digitVal a :: ns)
    else none
  | .fld _ _ :: _, [] => none

/-- The compiled form of `FMT = "%Y-%m-%d_%H:%M:%S"`. -/
def fmtItems : List FItem :=
  [.y4, .lit '-',
   .fld (fun v => 1 ≤ v ∧ v ≤ 12) (fun v => 1 ≤ v ∧ v ≤ 9), .lit '-',
   .fld (fun v => 1 ≤ v ∧ v ≤ 31) (fun v => 1 ≤ v ∧ v ≤ 9), .lit '_',
   .fld (fun v => v ≤ 23) (fun v => v ≤ 9), .lit ':',
   .fld (fun v => v ≤ 59) (fun v => v ≤ 9), .lit ':',
   .fld (fun v => v ≤ 61) (fun v => v ≤ 9)]

/-- `datetime.strptime(s, "%Y-%m-%d_%H:%M:%S")`, returning `none` where Python
raises `ValueError`. -/
def strptime (s : Str) : Option DT :=
  match matchFmt fmtItems s with
  | some [y, mo, d, h, mi, se] => mkDatetime y mo d h mi se
  | _ => none

example : strptime (pystr "2020-01-01_00:00:00") = some ⟨2020, 1, 1, 0, 0, 0⟩ := by decide

example : strptime (pystr "2020-02-30_00:00:00") = none := by decide

example : strptime (pystr "garbage") = none := by decide

example : strptime (pystr "x2020-01-01_00:00:0") = none := by decide

example : strptime (pystr "2020-1-1_00:00:00") = some ⟨2020, 1, 1, 0, 0, 0⟩ := by decide

/-! ## Lexicographic orders used by `ls.sort()`

Python sorts the `(datetime, path)` pairs by the standard tuple comparison:
first the `datetime`, then (on ties) the path string, compared code point by
code point. -/

/-- Python string `<`: code-point lexicographic comparison. -/
def strLt : Str → Str → Prop
  | [], [] => False
  | [], _ :: _ => True
  | _ :: _, [] => False
  | a :: as, b :: bs => a.toNat < b.toNat ∨ (a.toNat = b.toNat ∧ strLt as bs)

instance strLt.dec : (as bs : Str) → Decidable (strLt as bs)
  | [], [] => isFalse (by simp [strLt])
  | [], _ :: _ => isTrue (by simp [strLt])
  | _ :: _, [] => isFalse (by simp [strLt])
  | a :: as, b :: bs =>
    have : Decidable (strLt as bs) := strLt.dec as bs
    decidable_of_iff (a.toNat < b.toNat ∨ (a.toNat = b.toNat ∧ strLt as bs)) (by simp [strLt])

theorem char_toNat_inj {a b : Char} (h : a.toNat = b.toNat) : a = b := by
  rw [← Char.ofNat_toNat a, h, Char.ofNat_toNat]

theorem strLt_trans : ∀ {a b c : Str}, strLt a b → strLt b c → strLt a c
  | [], [], _, h1, _ => absurd h1 (by simp [strLt])
  | _, _ :: _, [], _, h2 => absurd h2 (by simp [strLt])
  | [], _ :: _, _ :: _, _, _ => by simp [strLt]
  | _ :: _, [], _, h1, _ => absurd h1 (by simp [strLt])
  | a :: as, b :: bs, c :: cs, h1, h2 => by
    simp only [strLt] at *
    rcases h1 with h1 | ⟨e1, h1⟩
    · rcases h2 with h2 | ⟨e2, h2⟩
      · exact Or.inl (h1.trans h2)
      · exact Or.inl (e2 ▸ h1)
    · rcases h2 with h2 | ⟨e2, h2⟩
      · exact Or.inl (e1 ▸ h2)
      · exact Or.inr ⟨e1.trans e2, strLt_trans h1 h2⟩

theorem strLt_asymm : ∀ {a b : Str}, strLt a b → ¬ strLt b a
  | [], [], h1, _ => absurd h1 (by simp [strLt])
  | [], _ :: _, _, h2 => absurd h2 (by simp [strLt])
  | _ :: _, [], h1, _ => absurd h1 (by simp [strLt])
  | a :: as, b :: bs, h1, h2 => by
    simp only [strLt] at h1 h2
    rcases h1 with h1 | ⟨e1, h1⟩
    · rcases h2 with h2 | ⟨e2, h2⟩
      · omega
      · omega
    · rcases h2 with h2 | ⟨e2, h2⟩
      · omega
      · exact strLt_asymm h1 h2

theorem strLt_connex : ∀ {a b : Str}, ¬ strLt a b → ¬ strLt b a → a = b
  | [], [], _, _ => rfl
  | [], _ :: _, h1, _ => absurd (by simp [strLt]) h1
  | _ :: _, [], _, h2 => absurd (by simp [strLt]) h2
  | a :: as, b :: bs, h1, h2 => by
    simp only [strLt] at h1 h2
    push_neg at h1 h2
    have e : a.toNat = b.toNat := by omega
    have : as = bs := strLt_connex (h1.2 e) (h2.2 e.symm)
    rw [char_toNat_inj e, this]

/-- Python tuple `<` on `(datetime, path)` pairs. -/
def entryLt (a b : DT × Str) : Prop :=
  DT.Lt a.1 b.1 ∨ (a.1 = b.1 ∧ strLt a.2 b.2)

instance (a b : DT × Str) : Decidable (entryLt a b) := by
  unfold entryLt
  exact inferInstance

/-- The (total) order `ls.sort()` sorts by: `a` may precede `b` iff `¬ b < a`. -/
def entryLe (a b : DT × Str) : Prop := ¬ entryLt b a

instance (a b : DT × Str) : Decidable (entryLe a b) := by
  unfold entryLe
  exact inferInstance

theorem entryLt_trans {a b c : DT × Str} (h1 : entryLt a b) (h2 : entryLt b c) : entryLt a c := by
  rcases h1 with h1 | ⟨e1, h1⟩
  · rcases h2 with h2 | ⟨e2, h2⟩
    · exact Or.inl (DT_Lt_trans h1 h2)
    · exact Or.inl (e2 ▸ h1)
  · rcases h2 with h2 | ⟨e2, h2⟩
    · exact Or.inl (e1 ▸ h2)
    · exact Or.inr ⟨e1.trans e2, strLt_trans h1 h2⟩

theorem entryLt_asymm {a b : DT × Str} (h1 : entryLt a b) : ¬ entryLt b a := by
  intro h2
  rcases h1 with h1 | ⟨e1, h1⟩
  · rcases h2 with h2 | ⟨e2, h2⟩
    · exact DT_Lt_asymm h1 h2
    · rw [e2] at h1
      exact DT_Lt_asymm h1 h1
  · rcases h2 with h2 | ⟨e2, h2⟩
    · rw [e1] at h2
      exact DT_Lt_asymm h2 h2
    · exact strLt_asymm h1 h2

theorem entryLt_connex {a b : DT × Str} (h1 : ¬ entryLt a b) (h2 : ¬ entryLt b a) : a = b := by
  unfold entryLt at h1 h2
  push_neg at h1 h2
  have e : a.1 = b.1 := DT_Lt_connex h1.1 h2.1
  have : a.2 = b.2 := strLt_connex (h1.2 e) (h2.2 e.symm)
  exact Prod.ext e this

instance : IsTotal (DT × Str) entryLe := by
  constructor
  intro a b
  by_cases h : entryLt b a
  · exact Or.inr (entryLt_asymm h)
  · exact Or.inl h

instance : IsTrans (DT × Str) entryLe := by
  constructor
  intro a b c h1 h2 hca
  rcases Decidable.em (entryLt a b) with hab | hab
  · exact h2 (entryLt_trans hca hab)
  · have e : a = b := entryLt_connex hab h1
    exact h2 (e ▸ hca)

instance : IsAntisymm (DT × Str) entryLe := ⟨fun _ _ h1 h2 => entryLt_connex h2 h1⟩

instance : IsRefl (DT × Str) entryLe := ⟨fun _ h => entryLt_asymm h h⟩

/-! ## The radar image relocator's directory scan (`get_images`) -/

/-- One result of `os.scandir`: entry name, full path, and whether it is a
directory. -/
structure DirEntry where
  name : Str
  path : Str
  isDir : Bool
deriving DecidableEq

/-- `FMT_LEN = 4 + 5 * 3`: the length of a fully two-digit-padded
`%Y-%m-%d_%H:%M:%S` timestamp. -/
def FMT_LEN : Nat := 4 + 5 * 3

/-- The loop body of `get_images`: skip directories, take the trailing
`FMT_LEN` characters of the extension-stripped name, try to parse them, and
drop entries outside the `[after, before]` window. -/
def scanFilter (after before : DT) (e : DirEntry) : Option (DT × Str) :=
  if e.isDir then none
  else
    match strptime (takeLast (splitext e.name).1 FMT_LEN) with
    | none => none
    | some dt => if DT.Lt dt after ∨ DT.Lt before dt then none else some (dt, e.path)

/-- `get_images(root, after=MIN_DT, before=MAX_DT)` from
`tools/radar_hdfs_cp.py`, over the directory listing `entries`: collect the
parsed `(timestamp, path)` pairs and sort them (`ls.sort()` sorts Python
tuples, i.e. by timestamp and then by path).  `List.insertionSort` computes
the same list as Python's stable `list.sort`, since both produce a sorted
permutation of the same list and the order is total and antisymmetric. -/
def get_images (entries : List DirEntry) (after before : DT) : List (DT × Str) :=
  List.insertionSort entryLe (entries.filterMap (scanFilter after before))

/-! ### Properties of the scan -/

theorem daysInMonth_le (y m : Nat) : daysInMonth y m ≤ 31 := by
  unfold daysInMonth
  split
  · split <;> omega
  · split <;> omega

/-- Values accepted by the `datetime` constructor satisfy its bounds. -/
theorem mkDatetime_bounds {y mo dd hh mi se : Nat} {d : DT}
    (h : mkDatetime y mo dd hh mi se = some d) :
    1 ≤ d.year ∧ d.year ≤ 9999 ∧ 1 ≤ d.month ∧ d.month ≤ 12 ∧ 1 ≤ d.day ∧ d.day ≤ 31 ∧
      d.hour ≤ 23 ∧ d.minute ≤ 59 ∧ d.second ≤ 59 := by
  unfold mkDatetime at h
  split at h
  case isTrue hc =>
    have hdm := daysInMonth_le y mo
    cases h
    simp only
    omega
  case isFalse => exact absurd h (by simp)

/-- Values produced by `strptime` satisfy the `datetime` constructor bounds. -/
theorem strptime_bounds {s : Str} {d : DT} (h : strptime s = some d) :
    1 ≤ d.year ∧ d.year ≤ 9999 ∧ 1 ≤ d.month ∧ d.month ≤ 12 ∧ 1 ≤ d.day ∧ d.day ≤ 31 ∧
      d.hour ≤ 23 ∧ d.minute ≤ 59 ∧ d.second ≤ 59 := by
  unfold strptime at h
  split at h
  · exact mkDatetime_bounds h
  · exact absurd h (by simp)

/-- Every value `strptime` produces lies inside the default
`[datetime.min, datetime.max]` window. -/
theorem strptime_default_window {s : Str} {d : DT} (h : strptime s = some d) :
    ¬ (DT.Lt d MIN_DT ∨ DT.Lt MAX_DT d) := by
  have hb := strptime_bounds h
  rcases d with ⟨y, mo, dd, hh, mi, se⟩
  simp only at hb
  simp only [DT.Lt, MIN_DT, MAX_DT]
  omega

/-- Characterisation of one loop iteration of `get_images`. -/
theorem scanFilter_eq_some {after before : DT} {e : DirEntry} {dt : DT} {p : Str} :
    scanFilter after before e = some (dt, p) ↔
      e.isDir = false ∧ strptime (takeLast (splitext e.name).1 FMT_LEN) = some dt ∧
      p = e.path ∧ ¬ DT.Lt dt after ∧ ¬ DT.Lt before dt := by
  unfold scanFilter
  cases hd : e.isDir with
  | true => simp
  | false =>
    simp only [Bool.false_eq_true, if_false]
    cases hs : strptime (takeLast (splitext e.name).1 FMT_LEN) with
    | none => simp
    | some dt' =>
      by_cases hw : DT.Lt dt' after ∨ DT.Lt before dt'
      · simp only [if_pos hw, true_and]
        constructor
        · intro h
          exact absurd h (by simp)
        · rintro ⟨hdt, hp, h1, h2⟩
          cases hdt
          exact absurd hw (by tauto)
      · simp only [if_neg hw, true_and]
        push_neg at hw
        constructor
        · intro h
          injection h with h
          cases h
          exact ⟨rfl, rfl, hw.1, hw.2⟩
        · rintro ⟨hdt, hp, _, _⟩
          cases hdt
          rw [hp]

theorem mem_get_images {entries : List DirEntry} {after before : DT} {dt : DT} {p : Str} :
    (dt, p) ∈ get_images entries after before ↔
      ∃ e ∈ entries, e.isDir = false ∧
        strptime (takeLast (splitext e.name).1 FMT_LEN) = some dt ∧ p = e.path ∧
        ¬ DT.Lt dt after ∧ ¬ DT.Lt before dt := by
  unfold get_images
  rw [List.mem_insertionSort, List.mem_filterMap]
  constructor
  · rintro ⟨e, he, hf⟩
    exact ⟨e, he, scanFilter_eq_some.mp hf⟩
  · rintro ⟨e, he, hf⟩
    exact ⟨e, he, scanFilter_eq_some.mpr hf⟩

theorem get_images_sorted (entries : List DirEntry) (after before : DT) :
    List.Sorted entryLe (get_images entries after before) :=
  List.sorted_insertionSort entryLe _

theorem get_images_perm {e1 e2 : List DirEntry} (h : e1.Perm e2) (after before : DT) :
    get_images e1 after before = get_images e2 after before := by
  refine List.eq_of_perm_of_sorted ?_ (get_images_sorted e1 after before)
    (get_images_sorted e2 after before)
  unfold get_images
  exact ((List.perm_insertionSort _ _).trans (h.filterMap _)).trans
    (List.perm_insertionSort _ _).symm

theorem entryLe_iff {a b : DT × Str} : entryLe a b ↔ entryLt a b ∨ a = b := by
  constructor
  · intro h
    rcases Decidable.em (entryLt a b) with hab | hab
    · exact Or.inl hab
    · exact Or.inr (entryLt_connex hab h)
  · rintro (h | rfl)
    · exact entryLt_asymm h
    · exact fun hh => entryLt_asymm hh hh

/-! ### Claims C5, C6, C9 -/

/-- The directory listing of the spec's worked example, deliberately given in
an order that is neither alphabetical nor chronological. -/
def demoEntries : List DirEntry :=
  [⟨pystr "radar_2020-01-02_00:00:00.img", pystr "/in/radar_2020-01-02_00:00:00.img", false⟩,
   ⟨pystr "garbage.img", pystr "/in/garbage.img", false⟩,
   ⟨pystr "radar_2020-01-01_00:00:00.img", pystr "/in/radar_2020-01-01_00:00:00.img", false⟩]

/-- **C5**: for every directory listing, the relocator's scan skips
subdirectories, takes the trailing 19-character substring of each file's
extension-stripped base name, attempts to parse it as a `YYYY-MM-DD_HH:MM:SS`
timestamp, silently excludes entries whose substring does not parse (the scan
itself is total), and returns the remaining `(timestamp, path)` entries
sorted ascending by timestamp; on a directory with files ending in
`_2020-01-01_00:00:00.img` and `_2020-01-02_00:00:00.img` plus `garbage.img`
it yields exactly those two entries in date order, `garbage.img` excluded. -/
theorem claim_C5 (entries : List DirEntry) :
    List.Sorted (fun a b : DT × Str => ¬ DT.Lt b.1 a.1) (get_images entries MIN_DT MAX_DT) ∧
    (∀ dt p, (dt, p) ∈ get_images entries MIN_DT MAX_DT ↔
      ∃ e ∈ entries, e.isDir = false ∧
        strptime (takeLast (splitext e.name).1 FMT_LEN) = some dt ∧ p = e.path) ∧
    get_images demoEntries MIN_DT MAX_DT =
      [(⟨2020, 1, 1, 0, 0, 0⟩, pystr "/in/radar_2020-01-01_00:00:00.img"),
       (⟨2020, 1, 2, 0, 0, 0⟩, pystr "/in/radar_2020-01-02_00:00:00.img")] := by
  refine ⟨?_, ?_, by decide⟩
  · exact (get_images_sorted entries MIN_DT MAX_DT).imp (fun h hlt => h (Or.inl hlt))
  · intro dt p
    rw [mem_get_images]
    constructor
    · rintro ⟨e, he, hdir, hparse, hpath, _, _⟩
      exact ⟨e, he, hdir, hparse, hpath⟩
    · rintro ⟨e, he, hdir, hparse, hpath⟩
      have hw := strptime_default_window hparse
      push_neg at hw
      exact ⟨e, he, hdir, hparse, hpath, hw.1, hw.2⟩

/-- **C6**: an entry with parsed timestamp `t` is excluded exactly when `t` is
strictly before `after` or strictly after `before`; boundary timestamps are
kept, so with `after = 2020-01-02_00:00:00` the 2020-01-01 entry of the
worked example is excluded while the 2020-01-02 entry is included. -/
theorem claim_C6 :
    (∀ (entries : List DirEntry) (after before dt : DT) (p : Str),
      (dt, p) ∈ get_images entries after before ↔
        (∃ e ∈ entries, e.isDir = false ∧
          strptime (takeLast (splitext e.name).1 FMT_LEN) = some dt ∧ p = e.path) ∧
        ¬ DT.Lt dt after ∧ ¬ DT.Lt before dt) ∧
    get_images demoEntries ⟨2020, 1, 2, 0, 0, 0⟩ MAX_DT =
      [(⟨2020, 1, 2, 0, 0, 0⟩, pystr "/in/radar_2020-01-02_00:00:00.img")] := by
  refine ⟨?_, by decide⟩
  intro entries after before dt p
  rw [mem_get_images]
  constructor
  · rintro ⟨e, he, hdir, hparse, hpath, h1, h2⟩
    exact ⟨⟨e, he, hdir, hparse, hpath⟩, h1, h2⟩
  · rintro ⟨⟨e, he, hdir, hparse, hpath⟩, h1, h2⟩
    exact ⟨e, he, hdir, hparse, hpath, h1, h2⟩

/-- **C9**: the scan's result is sorted by the lexicographic order on
`(timestamp, path)` pairs — so entries with equal timestamps appear in
ascending path order — and is invariant under permutations of the directory
listing: the processing order depends only on the set of entries, not on the
directory-listing order. -/
theorem claim_C9 :
    (∀ (e1 e2 : List DirEntry) (after before : DT), e1.Perm e2 →
      get_images e1 after before = get_images e2 after before) ∧
    (∀ (entries : List DirEntry) (after before : DT),
      List.Sorted (fun a b : DT × Str =>
        DT.Lt a.1 b.1 ∨ (a.1 = b.1 ∧ (strLt a.2 b.2 ∨ a.2 = b.2)))
        (get_images entries after before)) := by
  constructor
  · intro e1 e2 after before h
    exact get_images_perm h after before
  · intro entries after before
    refine (get_images_sorted entries after before).imp (fun h => ?_)
    rcases entryLe_iff.mp h with hlt | heq
    · rcases hlt with hlt | ⟨he, hs⟩
      · exact Or.inl hlt
      · exact Or.inr ⟨he, Or.inl hs⟩
    · cases heq
      exact Or.inr ⟨rfl, Or.inr rfl⟩

/-- Two concrete entries sharing a timestamp, for the `claim_C9` witness. -/
def tieA : DirEntry :=
  ⟨pystr "a_2020-01-01_00:00:00.img", pystr "/in/a_2020-01-01_00:00:00.img", false⟩

/-- Second tied entry for the `claim_C9` witness. -/
def tieB : DirEntry :=
  ⟨pystr "b_2020-01-01_00:00:00.img", pystr "/in/b_2020-01-01_00:00:00.img", false⟩

/-- Witness for `claim_C9`: two listings of the same tied entries in opposite
orders scan to the same sorted result, with the tie broken by path. -/
theorem claim_C9_witness :
    get_images [tieB, tieA] MIN_DT MAX_DT = get_images [tieA, tieB] MIN_DT MAX_DT ∧
    get_images [tieB, tieA] MIN_DT MAX_DT =
      [(⟨2020, 1, 1, 0, 0, 0⟩, pystr "/in/a_2020-01-01_00:00:00.img"),
       (⟨2020, 1, 1, 0, 0, 0⟩, pystr "/in/b_2020-01-01_00:00:00.img")] :=
  ⟨claim_C9.1 [tieB, tieA] [tieA, tieB] MIN_DT MAX_DT (List.Perm.swap tieA tieB []),
   by decide⟩

/-! ## Geotransform and raster builder (`tdm/app/map_to_tree.py`) -/

/-- A 2-D numeric array (list of rows), with floats idealised as rationals. -/
abbrev Matrix2 : Type := List (List ℚ)

/-- A GDAL geotransform: `(origin lon, pixel width, 0, origin lat, 0, pixel
height)`. -/
abbrev GeoT : Type := ℚ × ℚ × ℚ × ℚ × ℚ × ℚ

/-- `MemMasterBuilder.get_geotransform(lons, lats)`:
`(lons[0], (lons[-1]-lons[0])/len(lons), 0, lats[-1], 0,
-(lats[-1]-lats[0])/len(lats))`; `none` when an index access on an empty
coordinate vector would raise. -/
def get_geotransform (lons lats : List ℚ) : Option GeoT :=
  match lons.head?, lons.getLast?, lats.head?, lats.getLast? with
  | some l0, some ln, some t0, some tn =>
    some (l0, (ln - l0) / (lons.length : ℚ), 0, tn, 0, -((tn - t0) / (lats.length : ℚ)))
  | _, _, _, _ => none

/-- An in-memory GDAL raster: size from `data[0].shape`, one band per input
array (`driver.Create("", cols, rows, len(data), gdal.GDT_Float32)`), the
geotransform set once. -/
structure Raster where
  cols : Nat
  rows : Nat
  geotransform : GeoT
  bands : List Matrix2
deriving DecidableEq

/-- `build`'s argument: either a bare 2-D array or a list of them (`build`
wraps a non-list argument in a singleton list). -/
inductive BuildInput where
  | single : Matrix2 → BuildInput
  | multi : List Matrix2 → BuildInput

/-- `MemMasterBuilder.setup_raster`: reads `rows, cols = data[0].shape`
(raising on an empty list, hence `none`) and creates a raster with
`len(data)` bands. -/
def setup_raster (geot : GeoT) (data : List Matrix2) : Option Raster :=
  match data with
  | [] => none
  | d0 :: _ =>
    some ⟨(d0.headD []).length, d0.length, geot, List.replicate data.length []⟩

/-- `MemMasterBuilder.build(data, metadata)`: normalise the input to a list,
set up the raster, then for each `i, d` write `d[::-1, :]` (the array with
its row order reversed) into band `1 + i`.  The `metadata` argument is
accepted and ignored, exactly as in the source. -/
def build (geot : GeoT) (input : BuildInput) (_metadata : List (Str × Str)) : Option Raster :=
  let data := match input with
    | .single m => [m]
    | .multi l => l
  match setup_raster geot data with
  | none => none
  | some raster => some ⟨raster.cols, raster.rows, raster.geotransform,
      data.map (fun d => d.reverse)⟩

/-- Ascending coordinate vector: consecutive entries strictly increase. -/
def Ascending (l : List ℚ) : Prop := List.Chain' (· < ·) l

/-- In a list whose consecutive entries strictly increase and that has at
least two entries, the first entry is strictly below the last. -/
theorem headD_lt_getLastD {l : List ℚ} (ha : Ascending l) (hl : 2 ≤ l.length) :
    l.headD 0 < l.getLastD 0 := by
  induction l with
  | nil => simp at hl
  | cons a t ih =>
    cases t with
    | nil => simp at hl
    | cons b t' =>
      have hab : a < b := (List.chain'_cons.mp ha).1
      have ht : Ascending (b :: t') := (List.chain'_cons.mp ha).2
      cases t' with
      | nil => simpa using hab
      | cons c t'' =>
        have := ih ht (by simp)
        simp only [List.headD_cons] at this
        calc a < b := hab
          _ < (b :: c :: t'').getLastD 0 := by simpa using this
        
theorem getLastD_cons_cons {α : Type} (a b : α) (t : List α) (d : α) :
    (a :: b :: t).getLastD d = (b :: t).getLastD d := by
  simp [List.getLastD_eq_getLast?]

/-- **C1**: for ascending longitude and latitude vectors (with at least two
points each, so that "ascending" is meaningful), the geotransform is
`(L[0], (L[-1]-L[0])/len(L), 0, T[-1], 0, -(T[-1]-T[0])/len(T))`; in
particular its pixel width is positive, its pixel height negative, its origin
longitude is the first longitude value and its origin latitude the last
latitude value. -/
theorem claim_C1 (L T : List ℚ) (hL : Ascending L) (hT : Ascending T)
    (hL2 : 2 ≤ L.length) (hT2 : 2 ≤ T.length) :
    get_geotransform L T =
      some (L.headD 0, (L.getLastD 0 - L.headD 0) / (L.length : ℚ), 0,
        T.getLastD 0, 0, -((T.getLastD 0 - T.headD 0) / (T.length : ℚ))) ∧
    0 < (L.getLastD 0 - L.headD 0) / (L.length : ℚ) ∧
    -((T.getLastD 0 - T.headD 0) / (T.length : ℚ)) < 0 := by
  have hLne : L ≠ [] := by
    intro h
    rw [h] at hL2
    simp at hL2
  have hTne : T ≠ [] := by
    intro h
    rw [h] at hT2
    simp at hT2
  refine ⟨?_, ?_, ?_⟩
  · unfold get_geotransform
    rw [List.head?_eq_head hLne, List.getLast?_eq_getLast L hLne,
      List.head?_eq_head hTne, List.getLast?_eq_getLast T hTne]
    simp [List.getLastD_eq_getLast?, List.getLast?_eq_getLast L hLne,
      List.getLast?_eq_getLast T hTne, List.head?_eq_head hLne, List.head?_eq_head hTne]
  · have h1 : L.headD 0 < L.getLastD 0 := headD_lt_getLastD hL hL2
    have h2 : (0 : ℚ) < (L.length : ℚ) := Nat.cast_pos.mpr (by omega)
    exact div_pos (sub_pos.mpr h1) h2
  · have h1 : T.headD 0 < T.getLastD 0 := headD_lt_getLastD hT hT2
    have h2 : (0 : ℚ) < (T.length : ℚ) := Nat.cast_pos.mpr (by omega)
    have h3 := div_pos (sub_pos.mpr h1) h2
    linarith

/-- Witness for `claim_C1` at `L = [0, 1]`, `T = [2, 3]`. -/
theorem claim_C1_witness :
    get_geotransform [(0 : ℚ), 1] [(2 : ℚ), 3] = some (0, 1/2, 0, 3, 0, -(1/2)) ∧
    (0 : ℚ) < 1/2 ∧ (-(1/2) : ℚ) < 0 := by
  have h := claim_C1 [(0 : ℚ), 1] [(2 : ℚ), 3]
    (List.chain'_pair.mpr (by norm_num)) (List.chain'_pair.mpr (by norm_num))
    (by norm_num) (by norm_num)
  obtain ⟨h1, h2, h3⟩ := h
  refine ⟨?_, by norm_num, by norm_num⟩
  rw [h1]
  norm_num

/-- **C2**: for every (non-empty, shape-consistent) list of 2-D arrays, band
`i` of the raster produced by `build` holds the `i`-th input array with its
row order reversed, undoing the row flip reproduces the input exactly, and
the raster has exactly one band per input array.  (An empty list raises
`IndexError` in `setup_raster`; arrays of inconsistent shape are rejected by
the underlying raster library, so the claim is stated on the domain the
builder accepts.) -/
theorem claim_C2 (geot : GeoT) (data : List Matrix2) (meta : List (Str × Str)) (r : Raster)
    (hne : data ≠ [])
    (hshape : ∀ m ∈ data, m.length = (data.headD []).length ∧
      ∀ row ∈ m, row.length = ((data.headD []).headD []).length)
    (hb : build geot (.multi data) meta = some r) :
    r.bands.length = data.length ∧
    (∀ i, i < data.length → r.bands.getD i [] = (data.getD i []).reverse) ∧
    (∀ i, i < data.length → (r.bands.getD i []).reverse = data.getD i []) := by
  have hbands : r.bands = data.map (fun d => d.reverse) := by
    unfold build setup_raster at hb
    rcases data with _ | ⟨d0, rest⟩
    · exact absurd rfl hne
    · simp only at hb
      cases hb
      rfl
  have hband : ∀ i, i < data.length → r.bands.getD i [] = (data.getD i []).reverse := by
    intro i hi
    rw [hbands, List.getD_eq_getElem?_getD, List.getElem?_map,
      List.getElem?_eq_getElem (by simpa using hi), List.getD_eq_getElem?_getD,
      List.getElem?_eq_getElem hi]
    rfl
  refine ⟨by rw [hbands]; simp, hband, ?_⟩
  intro i hi
  rw [hband i hi, List.reverse_reverse]

/-- A concrete 2×2 two-array input for the `claim_C2` witness. -/
def demoData : List Matrix2 := [[[1, 2], [3, 4]], [[5, 6], [7, 8]]]

/-- Witness for `claim_C2` on two concrete 2×2 arrays. -/
theorem claim_C2_witness :
    ∃ r : Raster, build (0, 0, 0, 0, 0, 0) (.multi demoData) [] = some r ∧
      r.bands.length = demoData.length ∧
      (∀ i, i < demoData.length → r.bands.getD i [] = (demoData.getD i []).reverse) ∧
      (∀ i, i < demoData.length → (r.bands.getD i []).reverse = demoData.getD i []) := by
  obtain ⟨r, hr⟩ : ∃ r, build (0, 0, 0, 0, 0, 0) (.multi demoData) [] = some r := ⟨_, rfl⟩
  exact ⟨r, hr, claim_C2 (0, 0, 0, 0, 0, 0) demoData [] r (by decide) (by decide) hr⟩

/-- **C10**: `build` given a bare 2-D array wraps it in a one-element list
and behaves exactly as on that list, producing a raster with a single band
containing the vertically flipped array. -/
theorem claim_C10 (geot : GeoT) (m : Matrix2) (meta : List (Str × Str)) :
    build geot (.single m) meta = build geot (.multi [m]) meta ∧
    ∃ r, build geot (.single m) meta = some r ∧ r.bands = [m.reverse] := by
  exact ⟨rfl, ⟨(m.headD []).length, m.length, geot, [m.reverse]⟩, rfl, rfl⟩

/-! ## Output path builder (`PathBuilder`) -/

/-- The Simulation Descriptor (`simulation_details` dict).  The Python key
`'class'` is a Lean keyword and is embedded as the field `pclass` (matching
the source's local variable name). -/
structure SimDetails where
  group : Str
  pclass : Str
  name : Str
  uid : Str
  path : Str
  history : List Str
  start_time : Str
  end_time : Str
  lon_range : Str
  lat_range : Str
deriving DecidableEq

/-- `PathBuilder.__init__`: `os.path.join(dir_root, 'tdm/odata/product',
desc['group'], desc['class'], desc['name'], desc['uid'])`. -/
def product_root (dir_root : Str) (desc : SimDetails) : Str :=
  pathJoin dir_root
    [pystr "tdm/odata/product", desc.group, desc.pclass, desc.name, desc.uid]

/-- `PathBuilder.build(*args)`: `os.path.join(self.product_root, *args)`. -/
def PathBuilder.build (dir_root : Str) (desc : SimDetails) (args : List Str) : Str :=
  pathJoin (product_root dir_root desc) args

/-- A well-formed (possibly multi-segment) path component: non-empty and
neither starting nor ending with `'/'`. -/
def CompOK (s : Str) : Prop :=
  s ≠ [] ∧ s.head? ≠ some '/' ∧ s.getLast? ≠ some '/'

instance (s : Str) : Decidable (CompOK s) := by
  unfold CompOK
  exact inferInstance

theorem getLast?_cons_of_ne_nil {b : Str} (c : Char) (h : b ≠ []) :
    (c :: b).getLast? = b.getLast? := by
  cases b with
  | nil => exact absurd rfl h
  | cons x xs => simp [List.getLast?_cons_cons]

theorem joinOne_comp {acc b : Str} (h1 : acc ≠ []) (h2 : acc.getLast? ≠ some '/')
    (hb : CompOK b) : joinOne acc b = acc ++ '/' :: b := by
  unfold joinOne
  rw [if_neg hb.2.1, if_neg (not_or.mpr ⟨h1, h2⟩)]

/-- Folding `posixpath.join` over well-formed components appends each with a
single separator. -/
theorem pathJoin_comps : ∀ (comps : List Str) (acc : Str), acc ≠ [] →
    acc.getLast? ≠ some '/' → (∀ s ∈ comps, CompOK s) →
    pathJoin acc comps = acc ++ comps.flatMap (fun s => '/' :: s) := by
  intro comps
  induction comps with
  | nil =>
    intro acc _ _ _
    simp [pathJoin]
  | cons c cs ih =>
    intro acc h1 h2 hall
    have hc : CompOK c := hall c (by simp)
    have hstep : joinOne acc c = acc ++ '/' :: c := joinOne_comp h1 h2 hc
    have hne : joinOne acc c ≠ [] := by
      rw [hstep]
      simp
    have hlast : (joinOne acc c).getLast? ≠ some '/' := by
      rw [hstep, List.getLast?_append, getLast?_cons_of_ne_nil '/' hc.1]
      cases hgl : c.getLast? with
      | none => exact absurd (List.getLast?_eq_none_iff.mp hgl) hc.1
      | some x =>
        simp only [Option.or_some]
        intro hx
        injection hx with hx
        rw [hx] at hgl
        exact hc.2.2 hgl
    have : pathJoin acc (c :: cs) = pathJoin (joinOne acc c) cs := rfl
    rw [this, ih (joinOne acc c) hne hlast (fun s hs => hall s (List.mem_cons_of_mem c hs)),
      hstep, List.flatMap_cons, List.append_assoc]

/-- **C8**: the output path builder is a pure function of the root, the
descriptor's group/class/name/uid and the trailing segments, producing
`<root>/tdm/odata/product/<group>/<class>/<name>/<uid>/<segments...>` (for
well-formed components), and two descriptors differing only in `uid` yield
product roots that differ only in the final path segment: the parts before
the last separator coincide and the final segments are the two uids. -/
theorem claim_C8 (root : Str) (d1 d2 : SimDetails) (segs : List Str)
    (hroot : root ≠ []) (hroot2 : root.getLast? ≠ some '/')
    (hg : CompOK d1.group) (hc : CompOK d1.pclass) (hn : CompOK d1.name)
    (hu1 : CompOK d1.uid) (hu2 : CompOK d2.uid)
    (hgrp : d2.group = d1.group) (hcls : d2.pclass = d1.pclass) (hnam : d2.name = d1.name)
    (hsegs : ∀ s ∈ segs, CompOK s)
    (hns1 : '/' ∉ d1.uid) (hns2 : '/' ∉ d2.uid) :
    PathBuilder.build root d1 segs =
      root ++ ('/' :: pystr "tdm/odata/product") ++ ('/' :: d1.group) ++ ('/' :: d1.pclass)
        ++ ('/' :: d1.name) ++ ('/' :: d1.uid) ++ segs.flatMap (fun s => '/' :: s) ∧
    ∃ p, product_root root d1 = p ++ '/' :: d1.uid ∧ product_root root d2 = p ++ '/' :: d2.uid ∧
      '/' ∉ d1.uid ∧ '/' ∉ d2.uid := by
  have htdm : CompOK (pystr "tdm/odata/product") := by decide
  have hjoin : ∀ (d : SimDetails), CompOK d.group → CompOK d.pclass → CompOK d.name →
      CompOK d.uid → product_root root d =
        root ++ ('/' :: pystr "tdm/odata/product") ++ ('/' :: d.group) ++ ('/' :: d.pclass)
          ++ ('/' :: d.name) ++ ('/' :: d.uid) := by
    intro d hg' hc' hn' hu'
    unfold product_root
    rw [pathJoin_comps _ root hroot hroot2 (by
      intro s hs
      simp only [List.mem_cons, List.not_mem_nil, or_false] at hs
      rcases hs with rfl | rfl | rfl | rfl | rfl
      · exact htdm
      · exact hg'
      · exact hc'
      · exact hn'
      · exact hu')]
    simp [List.append_assoc]
  constructor
  · unfold PathBuilder.build
    have hpr := hjoin d1 hg hc hn hu1
    have hprne : product_root root d1 ≠ [] := by
      rw [hpr]
      simp
    have hprlast : (product_root root d1).getLast? ≠ some '/' := by
      rw [hpr, List.getLast?_append, getLast?_cons_of_ne_nil '/' hu1.1]
      cases hgl : d1.uid.getLast? with
      | none => exact absurd (List.getLast?_eq_none_iff.mp hgl) hu1.1
      | some x =>
        simp only [Option.or_some]
        intro hx
        injection hx with hx
        rw [hx] at hgl
        exact hu1.2.2 hgl
    rw [pathJoin_comps segs _ hprne hprlast hsegs, hpr]
  · refine ⟨root ++ ('/' :: pystr "tdm/odata/product") ++ ('/' :: d1.group)
      ++ ('/' :: d1.pclass) ++ ('/' :: d1.name), ?_, ?_, hns1, hns2⟩
    · rw [hjoin d1 hg hc hn hu1]
    · rw [hjoin d2 (hgrp ▸ hg) (hcls ▸ hc) (hnam ▸ hn) hu2, hgrp, hcls, hnam]

/-- Concrete descriptor for the `claim_C8` witness. -/
def demoDesc1 : SimDetails :=
  ⟨pystr "meteosim", pystr "moloch", pystr "foo_bar", pystr "001",
   pystr "moloch_foo_bar_001.nc", [], pystr "", pystr "", pystr "", pystr ""⟩

/-- The same descriptor with a different `uid`, for the `claim_C8` witness. -/
def demoDesc2 : SimDetails :=
  ⟨pystr "meteosim", pystr "moloch", pystr "foo_bar", pystr "002",
   pystr "moloch_foo_bar_001.nc", [], pystr "", pystr "", pystr "", pystr ""⟩

/-- Witness for `claim_C8` at a concrete root, two concrete descriptors
differing only in uid, and one trailing segment. -/
theorem claim_C8_witness :
    PathBuilder.build (pystr "/out") demoDesc1 [pystr "seg"] =
      pystr "/out/tdm/odata/product/meteosim/moloch/foo_bar/001/seg" ∧
    ∃ p, product_root (pystr "/out") demoDesc1 = p ++ '/' :: demoDesc1.uid ∧
      product_root (pystr "/out") demoDesc2 = p ++ '/' :: demoDesc2.uid ∧
      '/' ∉ demoDesc1.uid ∧ '/' ∉ demoDesc2.uid := by
  have h := claim_C8 (pystr "/out") demoDesc1 demoDesc2 [pystr "seg"]
    (by decide) (by decide) (by decide) (by decide) (by decide) (by decide) (by decide)
    rfl rfl rfl (by decide) (by decide) (by decide)
  obtain ⟨h1, h2⟩ := h
  refine ⟨?_, h2⟩
  rw [h1]
  decide

/-! ## Simulation metadata extraction (`get_simulation_details`) -/

/-- Result of `os.stat`: creation time, modification time, size. -/
structure Stat where
  st_ctime : ℚ
  st_mtime : ℚ
  st_size : ℚ
deriving DecidableEq

/-- External collaborators of `map_to_tree.py`, abstracted as parameters (see
the header): Python's float formatting `'{}'.format` and `'{:.3g}'.format`,
`urllib.parse.urljoin`, `os.stat`, and the `tdm` package version string. -/
structure Env where
  fmtNum : ℚ → Str
  fmt3g : ℚ → Str
  urljoin : Str → Str → Str
  stat : Str → Stat
  version : Str

/-- Decimal rendering of a natural number (`'{}'.format(int)`). -/
def natToStr (n : Nat) : Str := Nat.toDigits 10 n

/-- Two-digit zero padding (`%m`, `%d`, `%H`, `%M`, `%S` in `strftime`). -/
def pad2 (n : Nat) : Str := if n < 10 then '0' :: natToStr n else natToStr n

/-- Four-digit zero padding (`%Y` in `strftime`). -/
def pad4 (n : Nat) : Str :=
  if n < 10 then '0' :: '0' :: '0' :: natToStr n
  else if n < 100 then '0' :: '0' :: natToStr n
  else if n < 1000 then '0' :: natToStr n
  else natToStr n

/-- The Gregorian `(year, month, day)` of the day `z` days after 1970-01-01
(Hinnant's civil-from-days algorithm, floor-division variant); models the
calendar arithmetic inside `datetime.utcfromtimestamp`. -/
def civilFromDays (z : Int) : Int × Int × Int :=
  let zz := z + 719468
  let era := Int.fdiv zz 146097
  let doe := zz - era * 146097
  let yoe := Int.fdiv (doe - Int.fdiv doe 1460 + Int.fdiv doe 36524 - Int.fdiv doe 146096) 365
  let y := yoe + era * 400
  let doy := doe - (365 * yoe + Int.fdiv yoe 4 - Int.fdiv yoe 100)
  let mp := Int.fdiv (5 * doy + 2) 153
  let d := doy - Int.fdiv (153 * mp + 2) 5 + 1
  let m := mp + (if mp < 10 then 3 else -9)
  (y + (if m ≤ 2 then 1 else 0), m, d)

/-- `to_datetime(t)` from `map_to_tree.py`: the time coordinate value
(nanoseconds since the Unix epoch) rendered as `%Y-%m-%d_%H:%M:%S` in UTC
(`datetime.utcfromtimestamp(t.values.astype(int) * 1e-9).strftime(FMT)`; the
multiplication by the float `1e-9` is idealised as exact division — the
tool's time coordinates are whole seconds). -/
def to_datetime (tns : Int) : Str :=
  let secs := Int.fdiv tns 1000000000
  let days := Int.fdiv secs 86400
  let sod := (Int.emod secs 86400).toNat
  let ymd := civilFromDays days
  pad4 ymd.1.toNat ++ '-' :: pad2 ymd.2.1.toNat ++ '-' :: pad2 ymd.2.2.toNat
    ++ '_' :: pad2 (sod / 3600) ++ ':' :: pad2 (sod % 3600 / 60) ++ ':' :: pad2 (sod % 60)

example : to_datetime 0 = pystr "1970-01-01_00:00:00" := by decide

example : to_datetime 1577923200000000000 = pystr "2020-01-02_00:00:00" := by decide

/-- `to_coord_range(coord)`:
`'{}:{}:{:.3g}'.format(vals[0], len(vals), (vals[-1]-vals[0])/len(vals))`;
`none` when the coordinate vector is empty (IndexError on `vals[0]`). -/
def to_coord_range (env : Env) (vals : List ℚ) : Option Str :=
  match vals.head?, vals.getLast? with
  | some v0, some vn =>
    some (env.fmtNum v0 ++ ':' :: natToStr vals.length
      ++ ':' :: env.fmt3g ((vn - v0) / (vals.length : ℚ)))
  | _, _ => none

/-- One time slice of the dataset (`ds = dataset.sel({'time': t})`): the
`values` arrays of the five variables the exporter reads. -/
structure TimeSlice where
  tcdc : Matrix2
  apcp : Matrix2
  tmp : Matrix2
  ugrd : Matrix2
  vgrd : Matrix2
deriving DecidableEq

/-- The gridded time-series dataset: the `time` coordinate (nanoseconds since
the Unix epoch) with the per-time slices, and the `lon`/`lat` coordinates. -/
structure Dataset where
  times : List (Int × TimeSlice)
  lons : List ℚ
  lats : List ℚ
deriving DecidableEq

/-- The relevant command-line arguments; `none` models an option that was not
supplied. -/
structure Args where
  nc_path : Str
  product_group : Option Str
  product_class : Option Str
  instance_uid : Option Str
deriving DecidableEq

/-- `x if x else d` for an optional string: in Python both `None` and the
empty string are falsy. -/
def pyOr (v : Option Str) (dflt : Str) : Str :=
  match v with
  | some s => if s ≠ [] then s else dflt
  | none => dflt

/-- `basename, ext = os.path.splitext(os.path.basename(args.nc_path));
parts = basename.split('_')`. -/
def parseParts (nc_path : Str) : List Str :=
  ((splitext (basename nc_path)).1).splitOn '_'

/-- `get_simulation_details(args, dataset)`: parse `<class>_<name>_<uid>`
from the extension-stripped base name of `args.nc_path` (`parts[0]` and
`parts[-1]` cannot raise because `str.split` never returns an empty list, so
they are embedded as `headD`/`getLastD`), apply the group/class/uid
overrides, and assemble the Simulation Descriptor; `none` when an index
access on an empty `time`/`lon`/`lat` coordinate would raise. -/
def get_simulation_details (env : Env) (args : Args) (ds : Dataset) : Option SimDetails :=
  match ds.times.head?, ds.times.getLast?,
      to_coord_range env ds.lons, to_coord_range env ds.lats with
  | some t0, some tn, some lonR, some latR =>
    some ⟨pyOr args.product_group (pystr "simulation"),
      pyOr args.product_class ((parseParts args.nc_path).headD []),
      List.intercalate (pystr "_") (((parseParts args.nc_path).drop 1).dropLast),
      pyOr args.instance_uid ((parseParts args.nc_path).getLastD []),
      args.nc_path,
      [pystr "Extracted by tdm map_to_tree " ++ env.version],
      to_datetime t0.1, to_datetime tn.1, lonR, latR⟩
  | _, _, _, _ => none

/-- A concrete environment instance for witnesses and counterexamples. -/
def env0 : Env :=
  ⟨fun _ => pystr "0.0", fun _ => pystr "0.0", fun _ p => p, fun _ => ⟨0, 0, 0⟩, pystr "0.0"⟩

/-- A one-slice concrete dataset for witnesses and counterexamples. -/
def ds0 : Dataset :=
  ⟨[(0, ⟨[[0]], [[0]], [[0]], [[0]], [[0]]⟩)], [0, 1], [0, 1]⟩

example :
    (get_simulation_details env0 ⟨pystr "moloch_foo_bar_001.nc", none, none, none⟩ ds0).map
        (fun d => (d.group, d.pclass, d.name, d.uid)) =
      some (pystr "simulation", pystr "moloch", pystr "foo_bar", pystr "001") := by
  decide

example :
    (get_simulation_details env0 ⟨pystr "_moloch.nc", none, none, none⟩ ds0).map
        (fun d => d.pclass) = some [] := by
  decide

example :
    (get_simulation_details env0 ⟨pystr "moloch_foo_bar_001.nc", none, some [], none⟩ ds0).map
        (fun d => d.pclass) = some (pystr "moloch") := by
  decide

/-- The descriptor extracted from `moloch_foo_bar_001.nc` with no overrides,
under the concrete `env0` and `ds0`. -/
def dMoloch : SimDetails :=
  ⟨pystr "simulation", pystr "moloch", pystr "foo_bar", pystr "001",
   pystr "moloch_foo_bar_001.nc", [pystr "Extracted by tdm map_to_tree 0.0"],
   pystr "1970-01-01_00:00:00", pystr "1970-01-01_00:00:00",
   pystr "0.0:2:0.0", pystr "0.0:2:0.0"⟩

theorem pyOr_some {v d : Str} (hv : v ≠ []) : pyOr (some v) d = v := by
  simp [pyOr, hv]

theorem pyOr_eq_or (o : Option Str) (dflt : Str) :
    pyOr o dflt = dflt ∨ ∃ v, o = some v ∧ v ≠ [] ∧ pyOr o dflt = v := by
  cases o with
  | none => exact Or.inl rfl
  | some v =>
    by_cases hv : v = []
    · subst hv
      exact Or.inl (by simp [pyOr])
    · exact Or.inr ⟨v, rfl, hv, by simp [pyOr, hv]⟩

/-- The four identifying fields of a successfully extracted descriptor. -/
theorem get_simulation_details_fields {env : Env} {args : Args} {ds : Dataset} {d : SimDetails}
    (h : get_simulation_details env args ds = some d) :
    d.group = pyOr args.product_group (pystr "simulation") ∧
    d.pclass = pyOr args.product_class ((parseParts args.nc_path).headD []) ∧
    d.name = List.intercalate (pystr "_") (((parseParts args.nc_path).drop 1).dropLast) ∧
    d.uid = pyOr args.instance_uid ((parseParts args.nc_path).getLastD []) := by
  unfold get_simulation_details at h
  split at h
  · injection h with h
    subst h
    exact ⟨rfl, rfl, rfl, rfl⟩
  · exact absurd h (by simp)

/-- **C3** (amended): metadata extraction strips the extension from the base
name, splits on underscore, and takes class from the first token, uid from
the last token and name from the middle tokens rejoined with underscore
(`moloch_foo_bar_001.nc` parses to class `moloch`, name `foo_bar`, uid
`001`); a *non-empty* explicit group/class/uid override replaces the parsed
value, while an empty-string override is falsy in Python and leaves the
parsed (or default) value in place. -/
theorem claim_C3_amended :
    (∀ (env : Env) (args : Args) (ds : Dataset) (d : SimDetails),
      get_simulation_details env args ds = some d →
      ((args.product_class = none ∨ args.product_class = some [] →
          d.pclass = (parseParts args.nc_path).headD []) ∧
        (∀ v, args.product_class = some v → v ≠ [] → d.pclass = v)) ∧
      ((args.instance_uid = none ∨ args.instance_uid = some [] →
          d.uid = (parseParts args.nc_path).getLastD []) ∧
        (∀ v, args.instance_uid = some v → v ≠ [] → d.uid = v)) ∧
      d.name = List.intercalate (pystr "_") (((parseParts args.nc_path).drop 1).dropLast) ∧
      ((args.product_group = none ∨ args.product_group = some [] →
          d.group = pystr "simulation") ∧
        (∀ v, args.product_group = some v → v ≠ [] → d.group = v))) ∧
    (∃ d, get_simulation_details env0 ⟨pystr "moloch_foo_bar_001.nc", none, none, none⟩ ds0
        = some d ∧ d.pclass = pystr "moloch" ∧ d.name = pystr "foo_bar" ∧
        d.uid = pystr "001") := by
  constructor
  · intro env args ds d h
    have hf := get_simulation_details_fields h
    refine ⟨⟨?_, ?_⟩, ⟨?_, ?_⟩, hf.2.2.1, ⟨?_, ?_⟩⟩
    · rintro (hc | hc) <;> rw [hf.2.1, hc] <;> simp [pyOr]
    · intro v hv hne
      rw [hf.2.1, hv, pyOr_some hne]
    · rintro (hc | hc) <;> rw [hf.2.2.2, hc] <;> simp [pyOr]
    · intro v hv hne
      rw [hf.2.2.2, hv, pyOr_some hne]
    · rintro (hc | hc) <;> rw [hf.1, hc] <;> simp [pyOr]
    · intro v hv hne
      rw [hf.1, hv, pyOr_some hne]
  · exact ⟨dMoloch, by decide, by decide, by decide, by decide⟩

/-- Counterexample to **C3** as frozen: the explicit override
`--product-class ""` (an empty string) does *not* replace the parsed value —
the code tests the override for Python truthiness rather than presence, so
the class stays `moloch` instead of becoming the empty override. -/
theorem claim_C3_counterexample :
    ∃ d, get_simulation_details env0 ⟨pystr "moloch_foo_bar_001.nc", none, some [], none⟩ ds0
        = some d ∧ d.pclass = pystr "moloch" ∧ d.pclass ≠ [] := by
  exact ⟨dMoloch, by decide, by decide, by decide⟩

/-- Witness for `claim_C3_amended`: a non-empty class override replaces the
parsed class, while the uid stays the parsed one. -/
theorem claim_C3_witness :
    ∃ d, get_simulation_details env0
        ⟨pystr "moloch_foo_bar_001.nc", none, some (pystr "wrf"), none⟩ ds0 = some d ∧
      d.pclass = pystr "wrf" ∧ d.uid = pystr "001" := by
  obtain ⟨d, hd⟩ : ∃ d, get_simulation_details env0
      ⟨pystr "moloch_foo_bar_001.nc", none, some (pystr "wrf"), none⟩ ds0 = some d :=
    ⟨⟨pystr "simulation", pystr "wrf", pystr "foo_bar", pystr "001",
      pystr "moloch_foo_bar_001.nc", [pystr "Extracted by tdm map_to_tree 0.0"],
      pystr "1970-01-01_00:00:00", pystr "1970-01-01_00:00:00",
      pystr "0.0:2:0.0", pystr "0.0:2:0.0"⟩, by decide⟩
  have h := (claim_C3_amended.1 env0
    ⟨pystr "moloch_foo_bar_001.nc", none, some (pystr "wrf"), none⟩ ds0 d hd)
  refine ⟨d, hd, h.1.2 (pystr "wrf") rfl (by decide), ?_⟩
  rw [h.2.1.1 (Or.inl rfl)]
  decide

/-- **C4** (amended): the extracted descriptor's class (resp. uid) is
non-empty provided the corresponding explicit override is a non-empty string
or the corresponding parsed token — the first (resp. last)
underscore-separated token of the extension-stripped base name — is
non-empty.  (Without that proviso the fields can be empty, see
`claim_C4_counterexample`.) -/
theorem claim_C4_amended (env : Env) (args : Args) (ds : Dataset) (d : SimDetails)
    (h : get_simulation_details env args ds = some d) :
    (((∃ v, args.product_class = some v ∧ v ≠ []) ∨ (parseParts args.nc_path).headD [] ≠ []) →
      d.pclass ≠ []) ∧
    (((∃ v, args.instance_uid = some v ∧ v ≠ []) ∨ (parseParts args.nc_path).getLastD [] ≠ []) →
      d.uid ≠ []) := by
  have hf := get_simulation_details_fields h
  constructor
  · rintro (⟨v, hv, hne⟩ | hne)
    · rw [hf.2.1, hv, pyOr_some hne]
      exact hne
    · rw [hf.2.1]
      rcases pyOr_eq_or args.product_class ((parseParts args.nc_path).headD []) with he | ⟨v, _, hv, he⟩
      · rw [he]
        exact hne
      · rw [he]
        exact hv
  · rintro (⟨v, hv, hne⟩ | hne)
    · rw [hf.2.2.2, hv, pyOr_some hne]
      exact hne
    · rw [hf.2.2.2]
      rcases pyOr_eq_or args.instance_uid ((parseParts args.nc_path).getLastD []) with he | ⟨v, _, hv, he⟩
      · rw [he]
        exact hne
      · rw [he]
        exact hv

/-- Counterexample to **C4** as frozen: on the input file `_moloch.nc` with
no overrides, the first underscore token is empty and the descriptor's class
comes out empty — the code has no guard enforcing non-emptiness. -/
theorem claim_C4_counterexample :
    ∃ d, get_simulation_details env0 ⟨pystr "_moloch.nc", none, none, none⟩ ds0 = some d ∧
      d.pclass = [] := by
  exact ⟨⟨pystr "simulation", [], [], pystr "moloch", pystr "_moloch.nc",
    [pystr "Extracted by tdm map_to_tree 0.0"],
    pystr "1970-01-01_00:00:00", pystr "1970-01-01_00:00:00",
    pystr "0.0:2:0.0", pystr "0.0:2:0.0"⟩, by decide, rfl⟩

/-- Witness for `claim_C4_amended` on `moloch_foo_bar_001.nc` with no
overrides: both provisos hold and both fields are non-empty. -/
theorem claim_C4_witness :
    ∃ d, get_simulation_details env0 ⟨pystr "moloch_foo_bar_001.nc", none, none, none⟩ ds0
        = some d ∧ d.pclass ≠ [] ∧ d.uid ≠ [] := by
  obtain ⟨d, hd⟩ : ∃ d, get_simulation_details env0
      ⟨pystr "moloch_foo_bar_001.nc", none, none, none⟩ ds0 = some d := ⟨dMoloch, by decide⟩
  have h := claim_C4_amended env0 ⟨pystr "moloch_foo_bar_001.nc", none, none, none⟩ ds0 d hd
  exact ⟨d, hd, h.1 (Or.inr (by decide)), h.2 (Or.inr (by decide))⟩

/-! ## The dataset-to-tree export driver (`dump_to_tree`) -/

/-- Elementwise subtraction of a scalar from a 2-D array
(`ds['TMP_2maboveground'].values - 273.15`). -/
def matSub (m : Matrix2) (c : ℚ) : Matrix2 := m.map (fun row => row.map (fun x => x - c))

/-- A JSON value; objects are *ordered* association lists, since Python dicts
preserve insertion order and `json.dumps(..., sort_keys=False)` serialises
keys in that order. -/
inductive Json where
  | str : Str → Json
  | num : ℚ → Json
  | arr : List Json → Json
  | obj : List (Str × Json) → Json

/-- One filesystem / stdout side effect of the export driver.  The manifest
write records the document and the `indent` / `sort_keys` arguments passed to
`json.dumps` (`f.write(json.dumps(desc, indent=4, sort_keys=False))`);
serialisation to bytes is the JSON library's concern. -/
inductive FSEvent where
  | makedirs : Str → FSEvent
  | createCopy : Str → Raster → FSEvent
  | stdout : Str → FSEvent
  | writeJson : Str → Json → Nat → Bool → FSEvent

/-- `True` exactly on manifest-write events. -/
def isWriteJson : FSEvent → Bool
  | .writeJson _ _ _ _ => true
  | _ => false

/-- `create_res_description(name, desc, url, dt, lonlat, fname)`: the
resource dict, keys in insertion order; the `dt` and `lonlat` parameters are
accepted and unused, exactly as in the source. -/
def create_res_description (env : Env) (name desc url : Str) (_dt _lonlat : Str)
    (fname : Str) : Json :=
  .obj [(pystr "name", .str name),
        (pystr "description", .str desc),
        (pystr "url", .str url),
        (pystr "format", .str (pystr "TIFF")),
        (pystr "mimetype", .str (pystr "image/tiff")),
        (pystr "created", .num (env.stat fname).st_ctime),
        (pystr "last_modified", .num (env.stat fname).st_mtime),
        (pystr "size", .num (env.stat fname).st_size)]

/-- The four `(fname, desc, fdata)` triples of the inner loop of
`dump_to_tree`, for one time slice: cloud coverage, precipitation,
temperature converted from Kelvin to Celsius by subtracting 273.15, and the
two-component wind velocity as two stacked bands. -/
def varSpecs (sl : TimeSlice) : List (Str × Str × List Matrix2) :=
  [(pystr "tcov", pystr "Total cloud coverage [percent]", [sl.tcdc]),
   (pystr "tprec", pystr "Total precipitation [kg/m^2]", [sl.apcp]),
   (pystr "temp2m", pystr "Temperature 2m above ground [C]", [matSub sl.tmp (273.15 : ℚ)]),
   (pystr "uv10", pystr "Wind velocity at 10m [m/s]", [sl.ugrd, sl.vgrd])]

/-- `out_path = os.path.join(path, "%s.tif" % fname)`. -/
def outPath (path fname : Str) : Str := pathJoin path [fname ++ pystr ".tif"]

/-- `path = pbuilder.build(ts, lonlat)` for the time coordinate `t`. -/
def stepPath (pr lonlat : Str) (t : Int) : Str := pathJoin pr [to_datetime t, lonlat]

/-- The two side effects of one inner-loop iteration: the GeoTIFF copy of the
built raster and the progress line (empty only in the unreachable case where
the raster build fails on a non-empty band list). -/
def varEvents (geot : GeoT) (path ts : Str) (v : Str × Str × List Matrix2) : List FSEvent :=
  match build geot (.multi v.2.2) [(pystr "TIFFTAG_DATETIME", ts)] with
  | none => []
  | some raster =>
    [.createCopy (outPath path v.1) raster,
     .stdout (pystr "created " ++ outPath path v.1)]

/-- The resource description appended by one inner-loop iteration. -/
def varResource (env : Env) (path ts lonlat url_root : Str)
    (v : Str × Str × List Matrix2) : Json :=
  create_res_description env v.1 v.2.1 (env.urljoin url_root (outPath path v.1)) ts lonlat
    (outPath path v.1)

/-- One inner-loop iteration of `dump_to_tree`: build the raster (a build
failure propagates), copy it to the GeoTIFF file, print the progress line and
append the resource description. -/
def processVar (env : Env) (geot : GeoT) (path ts lonlat url_root : Str)
    (acc : List FSEvent × List Json) (v : Str × Str × List Matrix2) :
    Option (List FSEvent × List Json) :=
  match build geot (.multi v.2.2) [(pystr "TIFFTAG_DATETIME", ts)] with
  | none => none
  | some raster =>
    some (acc.1 ++ [.createCopy (outPath path v.1) raster,
                    .stdout (pystr "created " ++ outPath path v.1)],
          acc.2 ++ [varResource env path ts lonlat url_root v])

/-- One outer-loop iteration of `dump_to_tree`: select the time slice,
compute its timestamp string and directory, create the directory
(idempotent), then process the four variables. -/
def processTime (env : Env) (geot : GeoT) (pr lonlat url_root : Str)
    (acc : List FSEvent × List Json) (tsl : Int × TimeSlice) :
    Option (List FSEvent × List Json) :=
  (varSpecs tsl.2).foldlM
    (processVar env geot (stepPath pr lonlat tsl.1) (to_datetime tsl.1) lonlat url_root)
    (acc.1 ++ [.makedirs (stepPath pr lonlat tsl.1)], acc.2)

/-- The events of one whole time step, declaratively. -/
def stepEvents (geot : GeoT) (pr lonlat : Str)
    (tsl : Int × TimeSlice) : List FSEvent :=
  .makedirs (stepPath pr lonlat tsl.1) ::
    (varSpecs tsl.2).flatMap (varEvents geot (stepPath pr lonlat tsl.1) (to_datetime tsl.1))

/-- The resource descriptions of one whole time step, declaratively. -/
def stepResources (env : Env) (pr lonlat url_root : Str) (tsl : Int × TimeSlice) : List Json :=
  (varSpecs tsl.2).map
    (varResource env (stepPath pr lonlat tsl.1) (to_datetime tsl.1) lonlat url_root)

/-- The simulation-details dict as embedded JSON, keys in insertion order. -/
def simToJson (sd : SimDetails) : Json :=
  .obj [(pystr "group", .str sd.group),
        (pystr "class", .str sd.pclass),
        (pystr "name", .str sd.name),
        (pystr "uid", .str sd.uid),
        (pystr "path", .str sd.path),
        (pystr "history", .arr (sd.history.map .str)),
        (pystr "start_time", .str sd.start_time),
        (pystr "end_time", .str sd.end_time),
        (pystr "lon_range", .str sd.lon_range),
        (pystr "lat_range", .str sd.lat_range)]

/-- `dump_to_tree(out_dir, dataset, simulation_details, url_root)` as a trace
of side effects: create the raster and path builders (an empty coordinate
vector raises in `get_geotransform`), run the per-time-step loop in the
dataset's native time order, and finally write the JSON manifest once, at
`<product_root>/description.json`, with `indent=4` and `sort_keys=False`. -/
def dump_to_tree (env : Env) (out_dir : Str) (ds : Dataset) (sd : SimDetails)
    (url_root : Str) : Option (List FSEvent) :=
  match get_geotransform ds.lons ds.lats with
  | none => none
  | some geot =>
    match ds.times.foldlM
        (processTime env geot (product_root out_dir sd)
          (sd.lon_range ++ '_' :: sd.lat_range) url_root) ([], []) with
    | none => none
    | some acc =>
      some (acc.1 ++ [.writeJson
        (pathJoin (product_root out_dir sd) [pystr "description.json"])
        (.obj [(pystr "description", simToJson sd),
               (pystr "result", .obj [(pystr "resources", .arr acc.2)])]) 4 false])

theorem processVar_eq (env : Env) (geot : GeoT) (path ts lonlat url_root : Str)
    (acc : List FSEvent × List Json) (v : Str × Str × List Matrix2) (hv : v.2.2 ≠ []) :
    processVar env geot path ts lonlat url_root acc v =
      some (acc.1 ++ varEvents geot path ts v,
            acc.2 ++ [varResource env path ts lonlat url_root v]) := by
  unfold processVar varEvents
  cases hb : build geot (.multi v.2.2) [(pystr "TIFFTAG_DATETIME", ts)] with
  | none =>
    exfalso
    unfold build setup_raster at hb
    rcases hd : v.2.2 with _ | ⟨d0, rest⟩
    · exact hv hd
    · rw [hd] at hb
      simp at hb
  | some raster => rfl

/-- `foldlM` over `Option` with a body that appends onto both accumulator
components computes the concatenation of the per-element contributions. -/
theorem foldlM_option_append {α β γ : Type} (f : (List β × List γ) → α → Option (List β × List γ))
    (g : α → List β) (h : α → List γ) :
    ∀ l : List α, (∀ acc x, x ∈ l → f acc x = some (acc.1 ++ g x, acc.2 ++ h x)) →
    ∀ acc : List β × List γ,
      l.foldlM f acc = some (acc.1 ++ l.flatMap g, acc.2 ++ l.flatMap h) := by
  intro l
  induction l with
  | nil =>
    intro _ acc
    simp
  | cons a t ih =>
    intro hf acc
    rw [List.foldlM_cons, hf acc a (by simp)]
    show (t.foldlM f (acc.1 ++ g a, acc.2 ++ h a)) = _
    rw [ih (fun acc' x hx => hf acc' x (by simp [hx])) (acc.1 ++ g a, acc.2 ++ h a)]
    simp [List.append_assoc]

theorem processTime_eq (env : Env) (geot : GeoT) (pr lonlat url_root : Str)
    (acc : List FSEvent × List Json) (tsl : Int × TimeSlice) :
    processTime env geot pr lonlat url_root acc tsl =
      some (acc.1 ++ stepEvents geot pr lonlat tsl,
            acc.2 ++ stepResources env pr lonlat url_root tsl) := by
  unfold processTime stepEvents stepResources
  have h := foldlM_option_append
    (processVar env geot (stepPath pr lonlat tsl.1) (to_datetime tsl.1) lonlat url_root)
    (varEvents geot (stepPath pr lonlat tsl.1) (to_datetime tsl.1))
    (fun v => [varResource env (stepPath pr lonlat tsl.1) (to_datetime tsl.1) lonlat url_root v])
    (varSpecs tsl.2)
    (fun acc' v hv => processVar_eq env geot _ _ lonlat url_root acc' v (by
      simp only [varSpecs, List.mem_cons, List.not_mem_nil, or_false] at hv
      rcases hv with rfl | rfl | rfl | rfl <;> simp))
    (acc.1 ++ [FSEvent.makedirs (stepPath pr lonlat tsl.1)], acc.2)
  rw [h, List.map_eq_flatMap]
  simp [List.append_assoc]

theorem dump_to_tree_eq (env : Env) (out_dir : Str) (ds : Dataset) (sd : SimDetails)
    (url_root : Str) (geot : GeoT) (hg : get_geotransform ds.lons ds.lats = some geot) :
    dump_to_tree env out_dir ds sd url_root =
      some (ds.times.flatMap
          (stepEvents geot (product_root out_dir sd) (sd.lon_range ++ '_' :: sd.lat_range)) ++
        [.writeJson (pathJoin (product_root out_dir sd) [pystr "description.json"])
          (.obj [(pystr "description", simToJson sd),
                 (pystr "result", .obj [(pystr "resources", .arr (ds.times.flatMap
                   (stepResources env (product_root out_dir sd)
                     (sd.lon_range ++ '_' :: sd.lat_range) url_root)))])]) 4 false]) := by
  unfold dump_to_tree
  rw [hg]
  dsimp only
  have h := foldlM_option_append
    (processTime env geot (product_root out_dir sd) (sd.lon_range ++ '_' :: sd.lat_range)
      url_root)
    (stepEvents geot (product_root out_dir sd) (sd.lon_range ++ '_' :: sd.lat_range))
    (stepResources env (product_root out_dir sd) (sd.lon_range ++ '_' :: sd.lat_range) url_root)
    ds.times
    (fun acc x _ => processTime_eq env geot _ _ url_root acc x)
    ([], [])
  rw [h]
  simp

theorem stepEvents_no_writeJson {geot : GeoT} {pr lonlat : Str} {tsl : Int × TimeSlice}
    {e : FSEvent} (he : e ∈ stepEvents geot pr lonlat tsl) : isWriteJson e = false := by
  unfold stepEvents at he
  rcases List.mem_cons.mp he with rfl | he
  · rfl
  · rw [List.mem_flatMap] at he
    obtain ⟨v, _, he⟩ := he
    unfold varEvents at he
    split at he
    · simp at he
    · simp only [List.mem_cons, List.not_mem_nil, or_false] at he
      rcases he with rfl | rfl <;> rfl

theorem flatMap_stepResources_length (env : Env) (pr lonlat url_root : Str) :
    ∀ times : List (Int × TimeSlice),
      (times.flatMap (stepResources env pr lonlat url_root)).length = 4 * times.length := by
  intro times
  induction times with
  | nil => rfl
  | cons t ts ih =>
    rw [List.flatMap_cons, List.length_append, ih]
    have : (stepResources env pr lonlat url_root t).length = 4 := rfl
    rw [this]
    simp only [List.length_cons]
    omega

/-- **C7**: for every dataset with `K` time steps, the export driver appends
exactly 4 resource descriptions per time step — cloud coverage,
precipitation, temperature converted from Kelvin to Celsius by subtracting
273.15, and a two-band wind-velocity raster — so the manifest holds exactly
`4 * K` resource entries in production order; the manifest `description.json`
is written exactly once, as the final side effect after every time step, with
`sort_keys=False` (keys in insertion order, as recorded in the ordered
`Json.obj` document). -/
theorem claim_C7 (env : Env) (out_dir : Str) (ds : Dataset) (sd : SimDetails)
    (url_root : Str) (evts : List FSEvent)
    (hd : dump_to_tree env out_dir ds sd url_root = some evts) :
    ∃ (geot : GeoT) (ress : List Json),
      get_geotransform ds.lons ds.lats = some geot ∧
      ress = ds.times.flatMap (stepResources env (product_root out_dir sd)
        (sd.lon_range ++ '_' :: sd.lat_range) url_root) ∧
      ress.length = 4 * ds.times.length ∧
      evts = ds.times.flatMap (stepEvents geot (product_root out_dir sd)
          (sd.lon_range ++ '_' :: sd.lat_range)) ++
        [.writeJson (pathJoin (product_root out_dir sd) [pystr "description.json"])
          (.obj [(pystr "description", simToJson sd),
                 (pystr "result", .obj [(pystr "resources", .arr ress)])]) 4 false] ∧
      evts.getLast? = some (.writeJson
        (pathJoin (product_root out_dir sd) [pystr "description.json"])
        (.obj [(pystr "description", simToJson sd),
               (pystr "result", .obj [(pystr "resources", .arr ress)])]) 4 false) ∧
      (evts.filter isWriteJson).length = 1 ∧
      (∀ tsl ∈ ds.times, ∃ r1 r2 r3 r4 : Raster,
        stepEvents geot (product_root out_dir sd) (sd.lon_range ++ '_' :: sd.lat_range) tsl =
          [.makedirs (stepPath (product_root out_dir sd)
              (sd.lon_range ++ '_' :: sd.lat_range) tsl.1),
           .createCopy (outPath (stepPath (product_root out_dir sd)
              (sd.lon_range ++ '_' :: sd.lat_range) tsl.1) (pystr "tcov")) r1,
           .stdout (pystr "created " ++ outPath (stepPath (product_root out_dir sd)
              (sd.lon_range ++ '_' :: sd.lat_range) tsl.1) (pystr "tcov")),
           .createCopy (outPath (stepPath (product_root out_dir sd)
              (sd.lon_range ++ '_' :: sd.lat_range) tsl.1) (pystr "tprec")) r2,
           .stdout (pystr "created " ++ outPath (stepPath (product_root out_dir sd)
              (sd.lon_range ++ '_' :: sd.lat_range) tsl.1) (pystr "tprec")),
           .createCopy (outPath (stepPath (product_root out_dir sd)
              (sd.lon_range ++ '_' :: sd.lat_range) tsl.1) (pystr "temp2m")) r3,
           .stdout (pystr "created " ++ outPath (stepPath (product_root out_dir sd)
              (sd.lon_range ++ '_' :: sd.lat_range) tsl.1) (pystr "temp2m")),
           .createCopy (outPath (stepPath (product_root out_dir sd)
              (sd.lon_range ++ '_' :: sd.lat_range) tsl.1) (pystr "uv10")) r4,
           .stdout (pystr "created " ++ outPath (stepPath (product_root out_dir sd)
              (sd.lon_range ++ '_' :: sd.lat_range) tsl.1) (pystr "uv10"))] ∧
        r1.bands = [tsl.2.tcdc.reverse] ∧
        r2.bands = [tsl.2.apcp.reverse] ∧
        r3.bands = [(matSub tsl.2.tmp (273.15 : ℚ)).reverse] ∧
        r4.bands = [tsl.2.ugrd.reverse, tsl.2.vgrd.reverse]) := by
  cases hgg : get_geotransform ds.lons ds.lats with
  | none =>
    rw [dump_to_tree, hgg] at hd
    exact absurd hd (by simp)
  | some geot =>
    have heq := dump_to_tree_eq env out_dir ds sd url_root geot hgg
    rw [heq] at hd
    injection hd with hd
    subst hd
    refine ⟨geot, _, rfl, rfl, flatMap_stepResources_length env _ _ url_root ds.times,
      rfl, List.getLast?_concat _, ?_, ?_⟩
    · rw [List.filter_append]
      have h1 : (ds.times.flatMap (stepEvents geot (product_root out_dir sd)
          (sd.lon_range ++ '_' :: sd.lat_range))).filter isWriteJson = [] := by
        rw [List.filter_eq_nil_iff]
        intro e he
        rw [List.mem_flatMap] at he
        obtain ⟨tsl, _, he⟩ := he
        simp [stepEvents_no_writeJson he]
      rw [h1]
      rfl
    · intro tsl _
      exact ⟨⟨(tsl.2.tcdc.headD []).length, tsl.2.tcdc.length, geot, [tsl.2.tcdc.reverse]⟩,
        ⟨(tsl.2.apcp.headD []).length, tsl.2.apcp.length, geot, [tsl.2.apcp.reverse]⟩,
        ⟨((matSub tsl.2.tmp (273.15 : ℚ)).headD []).length, (matSub tsl.2.tmp (273.15 : ℚ)).length,
          geot, [(matSub tsl.2.tmp (273.15 : ℚ)).reverse]⟩,
        ⟨(tsl.2.ugrd.headD []).length, tsl.2.ugrd.length, geot,
          [tsl.2.ugrd.reverse, tsl.2.vgrd.reverse]⟩,
        rfl, rfl, rfl, rfl, rfl⟩

/-- Witness for `claim_C7` on a concrete one-time-step dataset: 4 resources,
one manifest write, last. -/
theorem claim_C7_witness :
    ∃ evts, dump_to_tree env0 (pystr "/out") ds0 dMoloch (pystr "u") = some evts ∧
      ∃ (geot : GeoT) (ress : List Json), get_geotransform ds0.lons ds0.lats = some geot ∧
        ress.length = 4 * ds0.times.length ∧
        (evts.filter isWriteJson).length = 1 ∧
        evts.getLast? = some (.writeJson
          (pathJoin (product_root (pystr "/out") dMoloch) [pystr "description.json"])
          (.obj [(pystr "description", simToJson dMoloch),
                 (pystr "result", .obj [(pystr "resources", .arr ress)])]) 4 false) := by
  have hg : get_geotransform ds0.lons ds0.lats = some (0, 1/2, 0, 1, 0, -(1/2)) := by
    show get_geotransform [0, 1] [0, 1] = _
    unfold get_geotransform
    norm_num
  have hd := dump_to_tree_eq env0 (pystr "/out") ds0 dMoloch (pystr "u") _ hg
  obtain ⟨geot, ress, h1, h2, h3, h4, h5, h6, h7⟩ :=
    claim_C7 env0 (pystr "/out") ds0 dMoloch (pystr "u") _ hd
  exact ⟨_, hd, geot, ress, h1, h3, h6, h5⟩

/-- Witness for `claim_C5`: the scan of the worked-example listing. -/
theorem claim_C5_witness :
    get_images demoEntries MIN_DT MAX_DT =
      [(⟨2020, 1, 1, 0, 0, 0⟩, pystr "/in/radar_2020-01-01_00:00:00.img"),
       (⟨2020, 1, 2, 0, 0, 0⟩, pystr "/in/radar_2020-01-02_00:00:00.img")] :=
  (claim_C5 demoEntries).2.2

/-- Witness for `claim_C6`: the boundary-inclusive filter on the worked
example. -/
theorem claim_C6_witness :
    get_images demoEntries ⟨2020, 1, 2, 0, 0, 0⟩ MAX_DT =
      [(⟨2020, 1, 2, 0, 0, 0⟩, pystr "/in/radar_2020-01-02_00:00:00.img")] :=
  claim_C6.2

/-- Witness for `claim_C10` on a concrete 2×2 array. -/
theorem claim_C10_witness :
    build (0, 0, 0, 0, 0, 0) (.single [[(1 : ℚ), 2], [3, 4]]) [] =
      build (0, 0, 0, 0, 0, 0) (.multi [[[(1 : ℚ), 2], [3, 4]]]) [] ∧
    ∃ r, build (0, 0, 0, 0, 0, 0) (.single [[(1 : ℚ), 2], [3, 4]]) [] = some r ∧
      r.bands = [[[(3 : ℚ), 4], [(1 : ℚ), 2]]] := by
  obtain ⟨h1, r, h2, h3⟩ := claim_C10 (0, 0, 0, 0, 0, 0) [[(1 : ℚ), 2], [3, 4]] []
  refine ⟨h1, r, h2, ?_⟩
  rw [h3]
  decide
